import Mathlib

/-!
Verification of the Bits-coins-ia web-spatial front-end state logic.

This file gives a shallow embedding of the client-side state stores and the
string-processing logic of the repository:

* the universe store (apps/web-spatial/src/shared/store/useUniverseStore.ts):
  planet records, selection / camera-focus state and its actions;
* the neuro store (useNeuroState, src/unnamed/part_001): mood, intensity,
  glitch pulse;
* the SPAWN-token regex matcher and parseFloat conversion used by the
  chat input (components/dom/IntelligenceInput.tsx and src/unnamed/part_002);
* the research fetch fallback paths (components/dom/IntelligenceTerminal.tsx
  and IntelligenceInput.tsx);
* the per-frame camera controller (widgets/universe/UniverseCanvas.tsx).

JavaScript numbers are modelled as rationals; Math.random-generated planet
positions are modelled as an explicit position parameter; the browser event
loop (setTimeout) is modelled as separate start / timeout state transitions;
fetch outcomes are modelled as an explicit result datatype.
-/

/-! ### Character classes of the SPAWN regex

The regex in handleSubmit is /\[SPAWN:\s*(\w+)\s+([\d\.]+)\s+([-\d\.]+)\s*(\w*)\]/ .
Its character classes (no unicode flag, so ASCII word characters; the
whitespace class is modelled by the ASCII whitespace characters, which are the
only whitespace characters relevant to the claims). -/

/-- JavaScript regex \w : ASCII letters, digits and underscore. -/
def isWordChar (c : Char) : Bool := c.isAlphanum || c = '_'

/-- JavaScript regex \s restricted to ASCII whitespace. -/
def isSpaceChar (c : Char) : Bool :=
  c = ' ' || c = '\t' || c = '\n' || c = '\r' || c = '\x0b' || c = '\x0c'

/-- Character class [\d\.] capturing the price group. -/
def isPriceChar (c : Char) : Bool := c.isDigit || c = '.'

/-- Character class [-\d\.] capturing the change group. -/
def isChangeChar (c : Char) : Bool := c = '-' || c.isDigit || c = '.'

/-! ### The universe store (useUniverseStore.ts) -/

/-- Coordinates are triples of numbers, modelled as rationals. -/
abbrev Vec3 := ℚ × ℚ × ℚ

/-- PlanetData from useUniverseStore.ts: ticker, price, change, pos, color? . -/
structure PlanetData where
  ticker : String
  price : ℚ
  change : ℚ
  pos : Vec3
  color : Option String
deriving DecidableEq, Repr

/-- UniverseModality from useUniverseStore.ts. -/
inductive UniverseModality where
  | PROMETHEUS
  | VOID
deriving DecidableEq, Repr

/-- UniverseState from useUniverseStore.ts (the data fields of the store). -/
structure UniverseState where
  modality : UniverseModality
  selectedTicker : Option String
  hoveredTicker : Option String
  cameraFocus : Vec3
  isFocusMode : Bool
  universeItems : List PlanetData
deriving DecidableEq, Repr

/-- The initial store state of useUniverseStore.ts, with its static seed list
of three planets (BTC, ETH, NVDA). -/
def initialUniverseState : UniverseState :=
  { modality := .PROMETHEUS
    selectedTicker := none
    hoveredTicker := none
    cameraFocus := (0, 0, 0)
    isFocusMode := false
    universeItems :=
      [ { ticker := "BTC", price := 65000, change := 5.2, pos := (0, 0, 0), color := none }
      , { ticker := "ETH", price := 3500, change := 2.1, pos := (5, 2, -5), color := none }
      , { ticker := "NVDA", price := 950, change := 12.5, pos := (-5, -2, -5), color := none } ] }

/-- JavaScript truthiness of a nullable string: null and the empty string are
falsy, every other string is truthy (the double-negation !!ticker in
setSelectedTicker). -/
def jsTruthy : Option String → Bool
  | none => false
  | some v => v != ""

/-- Action setModality of useUniverseStore.ts. -/
def setModality (m : UniverseModality) (s : UniverseState) : UniverseState :=
  { s with modality := m }

/-- Action setSelectedTicker of useUniverseStore.ts: stores the ticker and
derives isFocusMode by JavaScript truthiness of the ticker. -/
def setSelectedTicker (t : Option String) (s : UniverseState) : UniverseState :=
  { s with selectedTicker := t, isFocusMode := jsTruthy t }

/-- Action setHoveredTicker of useUniverseStore.ts. -/
def setHoveredTicker (t : Option String) (s : UniverseState) : UniverseState :=
  { s with hoveredTicker := t }

/-- Action setCameraFocus of useUniverseStore.ts. -/
def setCameraFocus (p : Vec3) (s : UniverseState) : UniverseState :=
  { s with cameraFocus := p }

/-- Action exitFocusMode of useUniverseStore.ts. -/
def exitFocusMode (s : UniverseState) : UniverseState :=
  { s with selectedTicker := none, isFocusMode := false, cameraFocus := (0, 0, 0) }

/-- Action spawnPlanet of useUniverseStore.ts.  The source checks
state.universeItems.find(p => p.ticker === ticker) for truthiness and returns
the state unchanged on a hit; otherwise it appends one new planet whose pos is
three Math.random draws, modelled here by the explicit parameter pos. -/
def spawnPlanet (ticker : String) (price change : ℚ) (color : Option String)
    (pos : Vec3) (s : UniverseState) : UniverseState :=
  if (s.universeItems.find? (fun p => p.ticker == ticker)).isSome then s
  else { s with universeItems :=
          s.universeItems ++ [{ ticker := ticker, price := price, change := change,
                                pos := pos, color := color }] }

/-- The actions exposed by useUniverseStore.ts, as one datatype so that
store-wide invariants can be quantified over every action. -/
inductive UAction where
  | setModality (m : UniverseModality)
  | setSelectedTicker (t : Option String)
  | setHoveredTicker (t : Option String)
  | setCameraFocus (p : Vec3)
  | exitFocusMode
  | spawnPlanet (ticker : String) (price change : ℚ) (color : Option String) (pos : Vec3)

/-- Interpretation of a store action as a state transition. -/
def applyAction : UAction → UniverseState → UniverseState
  | .setModality m, s => setModality m s
  | .setSelectedTicker t, s => setSelectedTicker t s
  | .setHoveredTicker t, s => setHoveredTicker t s
  | .setCameraFocus p, s => setCameraFocus p s
  | .exitFocusMode, s => exitFocusMode s
  | .spawnPlanet tk pr ch co pos, s => spawnPlanet tk pr ch co pos s

/-- Ticker uniqueness: no two planets of the store share a ticker string. -/
def tickersNodup (s : UniverseState) : Prop :=
  (s.universeItems.map PlanetData.ticker).Nodup

/-- Focus-mode invariant: isFocusMode holds exactly when a non-empty ticker is
selected. -/
def focusInvariant (s : UniverseState) : Prop :=
  s.isFocusMode = true ↔ ∃ t, s.selectedTicker = some t ∧ t ≠ ""

/-! ### The neuro store (useNeuroState, src/unnamed/part_001) -/

/-- NeuroMood from useNeuroState. -/
inductive NeuroMood where
  | CALM
  | ANALYSING
  | ALERT
  | CRITICAL
deriving DecidableEq, Repr

/-- The fixed four-entry color table moodColors of useNeuroState. -/
def moodColors : NeuroMood → String
  | .CALM => "hsla(180, 50%, 10%, 1)"
  | .ANALYSING => "hsla(210, 60%, 15%, 1)"
  | .ALERT => "hsla(35, 80%, 15%, 1)"
  | .CRITICAL => "hsla(0, 90%, 15%, 1)"

/-- NeuroState from useNeuroState (the data fields of the store). -/
structure NeuroState where
  mood : NeuroMood
  intensity : ℚ
  focus : ℚ
  glitchFactor : ℚ
  atmosphereColor : String
deriving DecidableEq, Repr

/-- The initial neuro store state. -/
def initialNeuroState : NeuroState :=
  { mood := .CALM, intensity := 0.2, focus := 0, glitchFactor := 0,
    atmosphereColor := moodColors .CALM }

/-- Action setMood of useNeuroState: stores the mood, the table color and the
derived intensity (1.0 for CRITICAL, 0.7 for ALERT, 0.3 otherwise). -/
def setMood (m : NeuroMood) (s : NeuroState) : NeuroState :=
  { s with mood := m
         , atmosphereColor := moodColors m
         , intensity := if m = .CRITICAL then 1.0 else if m = .ALERT then 0.7 else 0.3 }

/-- Action setIntensity of useNeuroState. -/
def setIntensity (i : ℚ) (s : NeuroState) : NeuroState := { s with intensity := i }

/-- Action setFocus of useNeuroState. -/
def setFocus (f : ℚ) (s : NeuroState) : NeuroState := { s with focus := f }

/-- First half of pulseGlitch of useNeuroState: the immediate
set(glitchFactor 1). -/
def pulseGlitchStart (s : NeuroState) : NeuroState := { s with glitchFactor := 1 }

/-- Second half of pulseGlitch of useNeuroState: the setTimeout callback that
fires after the duration and performs set(glitchFactor 0). -/
def pulseGlitchTimeout (s : NeuroState) : NeuroState := { s with glitchFactor := 0 }

/-! ### The SPAWN regex of handleSubmit

The matcher below embeds the JavaScript regex
/\[SPAWN:\s*(\w+)\s+([\d\.]+)\s+([-\d\.]+)\s*(\w*)\]/ with the standard
leftmost-match backtracking semantics of String.prototype.match.  All adjacent
class pairs of the pattern are disjoint except [-\d\.]+ followed by \s*(\w*),
whose overlap on digits is the one point where greedy backtracking matters;
tryChange performs exactly that backtracking, handing back characters of the
greedy [-\d\.]+ run one at a time. -/

/-- Consume an exact literal prefix, returning the remainder. -/
def dropLit : List Char → List Char → Option (List Char)
  | [], cs => some cs
  | _ :: _, [] => none
  | l :: ls, c :: cs => if c = l then dropLit ls cs else none

/-- Backtracking over the split between the greedy [-\d\.]+ run and the tail
\s*(\w*)\] of the pattern: try the k longest prefixes of the run as the change
group, longest first, and for each check \s* then \w* then the literal
bracket. -/
def tryChange : Nat → List Char → List Char → Option (List Char × List Char)
  | 0, _, _ => none
  | k + 1, chRun, rest =>
    let chg := chRun.take (k + 1)
    let rem := chRun.drop (k + 1) ++ rest
    let afterSp := rem.dropWhile isSpaceChar
    let co := afterSp.takeWhile isWordChar
    match afterSp.dropWhile isWordChar with
    | c :: _ => if c = ']' then some (chg, co) else tryChange k chRun rest
    | [] => tryChange k chRun rest

/-- Attempt to match the SPAWN pattern at the start of the input, returning the
four captured groups (ticker, price run, change run, color). -/
def matchSpawnAt (cs : List Char) : Option (List Char × List Char × List Char × List Char) :=
  match dropLit "[SPAWN:".data cs with
  | none => none
  | some r0 =>
    let r1 := r0.dropWhile isSpaceChar
    let tk := r1.takeWhile isWordChar
    if tk = [] then none else
    let r2 := r1.dropWhile isWordChar
    if r2.takeWhile isSpaceChar = [] then none else
    let r3 := r2.dropWhile isSpaceChar
    let pr := r3.takeWhile isPriceChar
    if pr = [] then none else
    let r4 := r3.dropWhile isPriceChar
    if r4.takeWhile isSpaceChar = [] then none else
    let r5 := r4.dropWhile isSpaceChar
    let chRun := r5.takeWhile isChangeChar
    if chRun = [] then none else
    let r6 := r5.dropWhile isChangeChar
    match tryChange chRun.length chRun r6 with
    | none => none
    | some (chg, co) => some (tk, pr, chg, co)

/-- Leftmost match of the SPAWN pattern: try every start position from the left
and return the groups of the first successful one, as answer.match does. -/
def findSpawn : List Char → Option (List Char × List Char × List Char × List Char)
  | [] => none
  | c :: cs =>
    match matchSpawnAt (c :: cs) with
    | some g => some g
    | none => findSpawn cs

/-- Numeric value of a digit run. -/
def digitsVal (ds : List Char) : ℕ :=
  ds.foldl (fun acc c => acc * 10 + (c.toNat - '0'.toNat)) 0

/-- Model of JavaScript parseFloat on the inputs the SPAWN regex can produce
(runs over the characters [-\d\.]): an optional sign, then digits, then an
optional dot and further digits; trailing unparseable characters are ignored
and NaN (no digit parsed) is modelled as none.  Exponents and leading
whitespace cannot occur in these inputs. -/
def jsParseFloat (cs : List Char) : Option ℚ :=
  let signed : ℚ × List Char :=
    match cs with
    | '-' :: t => (-1, t)
    | '+' :: t => (1, t)
    | t => (1, t)
  let intPart := signed.2.takeWhile Char.isDigit
  let rest := signed.2.dropWhile Char.isDigit
  let fracPart :=
    match rest with
    | '.' :: t => t.takeWhile Char.isDigit
    | _ => []
  if intPart = [] ∧ fracPart = [] then none
  else some (signed.1 * ((digitsVal intPart : ℚ) + (digitsVal fracPart : ℚ) / 10 ^ fracPart.length))

/-- Materialization step of handleSubmit (src/unnamed/part_002, lines 51-60):
match the answer against the SPAWN regex and, on a match, call spawnPlanet
with the parsed price and change (parseFloat guarded by || 0, so a NaN parse
becomes 0) and the captured color; on no match the store is untouched.  The
variant in components/dom/IntelligenceInput.tsx is identical except that it
passes the parseFloat results unguarded. -/
def handleSpawnStep (answer : List Char) (pos : Vec3) (s : UniverseState) : UniverseState :=
  match findSpawn answer with
  | none => s
  | some (tk, pr, chg, co) =>
    spawnPlanet tk.asString ((jsParseFloat pr).getD 0) ((jsParseFloat chg).getD 0)
      (some co.asString) pos s

/-- Token layout of a SPAWN command: the literal opener, whitespace runs
w0..w3 between the fields, the four field runs, and the closing bracket. -/
def spawnTokenChars (w0 tk w1 pr w2 ch w3 co : List Char) : List Char :=
  "[SPAWN:".data ++ w0 ++ tk ++ w1 ++ pr ++ w2 ++ ch ++ w3 ++ co ++ [']']

/-- Shape conditions for a whitespace-separated SPAWN token: the ticker is a
non-empty word, the price and change runs are non-empty runs over their
classes, the color is a word (possibly empty, and preceded by whitespace when
present), and the separators are whitespace. -/
def spawnShape (tk pr ch co w0 w1 w2 w3 : List Char) : Prop :=
  tk ≠ [] ∧ (∀ c ∈ tk, isWordChar c = true) ∧
  pr ≠ [] ∧ (∀ c ∈ pr, isPriceChar c = true) ∧
  ch ≠ [] ∧ (∀ c ∈ ch, isChangeChar c = true) ∧
  (∀ c ∈ co, isWordChar c = true) ∧
  (∀ c ∈ w0, isSpaceChar c = true) ∧
  w1 ≠ [] ∧ (∀ c ∈ w1, isSpaceChar c = true) ∧
  w2 ≠ [] ∧ (∀ c ∈ w2, isSpaceChar c = true) ∧
  (∀ c ∈ w3, isSpaceChar c = true) ∧
  (co ≠ [] → w3 ≠ [])

/-! ### Research fetch handling -/

/-- Outcome of a fetch call, as observed by the surrounding try block: a
parsed ok response body, a response with res.ok false (which both components
turn into a thrown error with a fixed message), or any other thrown failure
(network error, JSON parse error) with its message. -/
inductive FetchResult (α : Type) where
  | ok (body : α)
  | httpNotOk
  | failed (msg : String)
deriving DecidableEq, Repr

/-- Response body of the /research endpoint as read by IntelligenceTerminal:
answer, source, and an optional error field. -/
structure ResearchBody where
  answer : String
  source : String
  error : Option String
deriving DecidableEq, Repr

/-- generateMockResearch of libs/mock-data.ts: the static fallback answer and
source synthesised from the query. -/
def generateMockResearch (query : String) : String × String :=
  ("Simulated Analysis for \"" ++ query ++
     "\":\n\nThe system has detected strong bullish divergence in the underlying asset classes. Dimensional risk remains low comfortably within the 2-sigma range. \n\nRecommended Action: ACCUMULATE on dips.",
   "Synthetic Cortex v1")

/-- Response shown by handleResearch of IntelligenceTerminal.tsx: a non-ok
status, a thrown failure, or a body whose error field is truthy all fall into
the catch block, which substitutes generateMockResearch(query); an ok body is
shown as is. -/
def terminalResearchResponse (query : String) (f : FetchResult ResearchBody) : String × String :=
  match f with
  | .ok b => if jsTruthy b.error then generateMockResearch query else (b.answer, b.source)
  | .httpNotOk => generateMockResearch query
  | .failed _ => generateMockResearch query

/-- Response shown by handleSubmit of IntelligenceInput.tsx for the /research
call: the answer on success, and on any failure the literal error string
built from the thrown message (res.ok false throws "Neural Link Severed"). -/
def inputResearchResponse (f : FetchResult String) : String :=
  match f with
  | .ok answer => answer
  | .httpNotOk => "ERROR: CONNECTION FAILED. DETAILS: Neural Link Severed"
  | .failed msg => "ERROR: CONNECTION FAILED. DETAILS: " ++ msg

/-- Effect of one handleSubmit run on the universe store: only a successful
/research response reaches the materialization step; every failure path skips
it and leaves the store untouched. -/
def inputSubmitStore (f : FetchResult String) (pos : Vec3) (s : UniverseState) : UniverseState :=
  match f with
  | .ok answer => handleSpawnStep answer.data pos s
  | _ => s

/-! ### The per-frame camera controller (UniverseCanvas.tsx) -/

/-- Componentwise linear interpolation x + (y - x) * t of THREE.Vector3.lerp. -/
def lerpQ (x y t : ℚ) : ℚ := x + (y - x) * t

/-- THREE.Vector3.lerp on coordinate triples. -/
def lerpV (a b : Vec3) (t : ℚ) : Vec3 :=
  (lerpQ a.1 b.1 t, lerpQ a.2.1 b.2.1 t, lerpQ a.2.2 b.2.2 t)

/-- Vector addition of coordinate triples (THREE.Vector3.add). -/
def vaddV (a b : Vec3) : Vec3 := (a.1 + b.1, a.2.1 + b.2.1, a.2.2 + b.2.2)

/-- The interpolation goal of the focus branch: the stored cameraFocus target
plus the fixed offset (0, 2, 5). -/
def focusGoal (s : UniverseState) : Vec3 := vaddV s.cameraFocus (0, 2, 5)

/-- One useFrame tick of CameraController in UniverseCanvas.tsx, acting on the
camera position and the controls target.  In focus mode both are lerped with
factor 0.05, the camera toward cameraFocus plus the (0, 2, 5) offset and the
controls target toward cameraFocus itself; otherwise the mouse parallax branch
nudges the camera x and y toward twice the mouse coordinates with factor
0.02. -/
def cameraFrame (s : UniverseState) (mouse : ℚ × ℚ) (cam ctrl : Vec3) : Vec3 × Vec3 :=
  if s.isFocusMode then
    (lerpV cam (focusGoal s) 0.05, lerpV ctrl s.cameraFocus 0.05)
  else
    ((cam.1 + (mouse.1 * 2 - cam.1) * 0.02,
      cam.2.1 + (mouse.2 * 2 - cam.2.1) * 0.02,
      cam.2.2), ctrl)

/-- Iterated rendered frames of CameraController with a fixed store state. -/
def camIterate (s : UniverseState) (mouse : ℚ × ℚ) (p : Vec3 × Vec3) : Nat → Vec3 × Vec3
  | 0 => p
  | n + 1 =>
    let q := camIterate s mouse p n
    cameraFrame s mouse q.1 q.2

/-- A store state in focus mode with the camera focus target at the origin,
obtained from the initial state by store actions. -/
def focusedState : UniverseState :=
  setCameraFocus (0, 0, 0) (setSelectedTicker (some "BTC") initialUniverseState)

/-! ## Helper lemmas -/

/-- Consuming a literal prefix from itself plus a remainder yields the
remainder. -/
theorem dropLit_self_append (lit rest : List Char) : dropLit lit (lit ++ rest) = some rest := by
  induction lit with
  | nil => rfl
  | cons a t ih => simp [dropLit, ih]

/-- takeWhile walks through a block of characters that all satisfy the
predicate. -/
theorem takeWhile_append_all {p : Char → Bool} (xs ys : List Char)
    (h : ∀ c ∈ xs, p c = true) : (xs ++ ys).takeWhile p = xs ++ ys.takeWhile p := by
  induction xs with
  | nil => simp
  | cons a t ih =>
    have ha : p a = true := h a (by simp)
    simp only [List.cons_append, List.takeWhile_cons_of_pos ha]
    rw [ih (fun c hc => h c (by simp [hc]))]

/-- dropWhile removes a block of characters that all satisfy the predicate. -/
theorem dropWhile_append_all {p : Char → Bool} (xs ys : List Char)
    (h : ∀ c ∈ xs, p c = true) : (xs ++ ys).dropWhile p = ys.dropWhile p := by
  induction xs with
  | nil => simp
  | cons a t ih =>
    have ha : p a = true := h a (by simp)
    simp only [List.cons_append, List.dropWhile_cons_of_pos ha]
    exact ih (fun c hc => h c (by simp [hc]))

/-- takeWhile captures exactly a block followed by a failing character. -/
theorem takeWhile_block {p : Char → Bool} (xs : List Char) (c : Char) (ys : List Char)
    (h : ∀ a ∈ xs, p a = true) (hc : p c = false) :
    (xs ++ c :: ys).takeWhile p = xs := by
  rw [takeWhile_append_all xs (c :: ys) h,
      List.takeWhile_cons_of_neg (by simp [hc]), List.append_nil]

/-- dropWhile drops exactly a block up to a failing character. -/
theorem dropWhile_block {p : Char → Bool} (xs : List Char) (c : Char) (ys : List Char)
    (h : ∀ a ∈ xs, p a = true) (hc : p c = false) :
    (xs ++ c :: ys).dropWhile p = c :: ys := by
  rw [dropWhile_append_all xs (c :: ys) h, List.dropWhile_cons_of_neg (by simp [hc])]

/-- An ASCII whitespace character is in none of the other classes of the SPAWN
regex. -/
theorem space_not_other {c : Char} (h : isSpaceChar c = true) :
    isWordChar c = false ∧ isPriceChar c = false ∧ isChangeChar c = false := by
  simp only [isSpaceChar, Bool.or_eq_true, decide_eq_true_eq] at h
  rcases h with ((((h | h) | h) | h) | h) | h <;> subst h <;>
    exact ⟨by decide, by decide, by decide⟩

/-- A word character is not whitespace. -/
theorem word_not_space {c : Char} (h : isWordChar c = true) : isSpaceChar c = false := by
  cases hs : isSpaceChar c with
  | false => rfl
  | true => rw [(space_not_other hs).1] at h; exact absurd h (by simp)

/-- A price character is not whitespace. -/
theorem price_not_space {c : Char} (h : isPriceChar c = true) : isSpaceChar c = false := by
  cases hs : isSpaceChar c with
  | false => rfl
  | true => rw [(space_not_other hs).2.1] at h; exact absurd h (by simp)

/-- A change character is not whitespace. -/
theorem change_not_space {c : Char} (h : isChangeChar c = true) : isSpaceChar c = false := by
  cases hs : isSpaceChar c with
  | false => rfl
  | true => rw [(space_not_other hs).2.2] at h; exact absurd h (by simp)

/-- JavaScript truthiness of a nullable string holds exactly for non-empty
strings. -/
theorem jsTruthy_iff (o : Option String) : jsTruthy o = true ↔ ∃ t, o = some t ∧ t ≠ "" := by
  cases o with
  | none => simp [jsTruthy]
  | some v => simp [jsTruthy, bne_iff_ne]

/-! ## Claim theorems -/

/-- Claim C1: spawning a planet whose ticker is already present in
universeItems returns the store state completely unchanged. -/
theorem spawnPlanet_existing_ticker_noop (tk : String) (pr ch : ℚ) (co : Option String)
    (pos : Vec3) (s : UniverseState) (h : ∃ p ∈ s.universeItems, p.ticker = tk) :
    spawnPlanet tk pr ch co pos s = s := by
  obtain ⟨p, hp, hpt⟩ := h
  unfold spawnPlanet
  rw [if_pos]
  rw [List.find?_isSome]
  exact ⟨p, hp, by simp [hpt]⟩

/-- Witness for claim C1: respawning BTC, which is in the seed list, leaves
the initial state unchanged. -/
theorem spawnPlanet_existing_ticker_noop_witness :
    (∃ p ∈ initialUniverseState.universeItems, p.ticker = "BTC") ∧
    spawnPlanet "BTC" 1 2 none (3, 3, 3) initialUniverseState = initialUniverseState :=
  ⟨by decide, spawnPlanet_existing_ticker_noop "BTC" 1 2 none (3, 3, 3)
    initialUniverseState (by decide)⟩

/-- Claim C5: setMood stores the requested mood, looks its atmosphere color up
in the fixed four-entry table, sets the intensity to 1.0 for CRITICAL, 0.7 for
ALERT and 0.3 otherwise, keeps the intensity inside 0..1, and does not touch
the focus or glitch fields. -/
theorem setMood_matches_tables (m : NeuroMood) (s : NeuroState) :
    (setMood m s).mood = m ∧
    (setMood m s).atmosphereColor = moodColors m ∧
    (setMood m s).intensity =
      (if m = .CRITICAL then 1 else if m = .ALERT then 0.7 else 0.3) ∧
    0 ≤ (setMood m s).intensity ∧ (setMood m s).intensity ≤ 1 ∧
    (setMood m s).focus = s.focus ∧ (setMood m s).glitchFactor = s.glitchFactor := by
  have hint : (setMood m s).intensity =
      (if m = .CRITICAL then 1 else if m = .ALERT then 0.7 else 0.3) := by
    unfold setMood
    norm_num
  refine ⟨rfl, rfl, hint, ?_, ?_, rfl, rfl⟩ <;> rw [hint]
  · split
    · norm_num
    · split <;> norm_num
  · split
    · norm_num
    · split <;> norm_num

/-- Claim C6: no store action removes a planet.  Every action extends
universeItems by a (possibly empty) suffix, so every planet present before an
action is still present after it. -/
theorem universeItems_monotone (a : UAction) (s : UniverseState) :
    (∃ t, (applyAction a s).universeItems = s.universeItems ++ t) ∧
    ∀ p ∈ s.universeItems, p ∈ (applyAction a s).universeItems := by
  have h1 : ∃ t, (applyAction a s).universeItems = s.universeItems ++ t := by
    cases a with
    | setModality m => exact ⟨[], by simp [applyAction, setModality]⟩
    | setSelectedTicker t => exact ⟨[], by simp [applyAction, setSelectedTicker]⟩
    | setHoveredTicker t => exact ⟨[], by simp [applyAction, setHoveredTicker]⟩
    | setCameraFocus p => exact ⟨[], by simp [applyAction, setCameraFocus]⟩
    | exitFocusMode => exact ⟨[], by simp [applyAction, exitFocusMode]⟩
    | spawnPlanet tk pr ch co pos =>
      by_cases hf : (s.universeItems.find? (fun p => p.ticker == tk)).isSome
      · exact ⟨[], by simp [applyAction, spawnPlanet, hf]⟩
      · exact ⟨[{ ticker := tk, price := pr, change := ch, pos := pos, color := co }],
          by simp [applyAction, spawnPlanet, hf]⟩
  obtain ⟨t, ht⟩ := h1
  exact ⟨⟨t, ht⟩, fun p hp => by rw [ht]; exact List.mem_append_left _ hp⟩

/-- Witness for claim C6: a concrete spawn action only extends the seed
list. -/
theorem universeItems_monotone_witness :
    (∃ t, (applyAction (.spawnPlanet "SOL" 150 (-2) none (1, 1, 1)) initialUniverseState).universeItems
        = initialUniverseState.universeItems ++ t) ∧
    ∀ p ∈ initialUniverseState.universeItems,
      p ∈ (applyAction (.spawnPlanet "SOL" 150 (-2) none (1, 1, 1)) initialUniverseState).universeItems :=
  universeItems_monotone (.spawnPlanet "SOL" 150 (-2) none (1, 1, 1)) initialUniverseState

/-- Claim C8: the immediate half of pulseGlitch sets glitchFactor to 1, the
timeout half resets it to 0, and neither half touches the mood, intensity,
focus or atmosphereColor fields. -/
theorem pulseGlitch_pulse_and_reset (s : NeuroState) :
    (pulseGlitchStart s).glitchFactor = 1 ∧
    (pulseGlitchTimeout (pulseGlitchStart s)).glitchFactor = 0 ∧
    (pulseGlitchStart s).mood = s.mood ∧
    (pulseGlitchStart s).intensity = s.intensity ∧
    (pulseGlitchStart s).focus = s.focus ∧
    (pulseGlitchStart s).atmosphereColor = s.atmosphereColor ∧
    (pulseGlitchTimeout s).glitchFactor = 0 ∧
    (pulseGlitchTimeout s).mood = s.mood ∧
    (pulseGlitchTimeout s).intensity = s.intensity ∧
    (pulseGlitchTimeout s).focus = s.focus ∧
    (pulseGlitchTimeout s).atmosphereColor = s.atmosphereColor :=
  ⟨rfl, rfl, rfl, rfl, rfl, rfl, rfl, rfl, rfl, rfl, rfl⟩

/-- Claim C2: ticker uniqueness is an invariant of the universe store.  The
seed list has pairwise-distinct tickers and every store action preserves the
property that no two planets share a ticker. -/
theorem tickerUniqueness_invariant :
    tickersNodup initialUniverseState ∧
    ∀ (a : UAction) (s : UniverseState), tickersNodup s → tickersNodup (applyAction a s) := by
  refine ⟨by unfold tickersNodup; decide, ?_⟩
  intro a s h
  cases a with
  | setModality m => exact h
  | setSelectedTicker t => exact h
  | setHoveredTicker t => exact h
  | setCameraFocus p => exact h
  | exitFocusMode => exact h
  | spawnPlanet tk pr ch co pos =>
    by_cases hf : (s.universeItems.find? (fun p => p.ticker == tk)).isSome
    · simpa [applyAction, spawnPlanet, hf] using h
    · have hnone : s.universeItems.find? (fun p => p.ticker == tk) = none := by
        cases hv : s.universeItems.find? (fun p => p.ticker == tk) with
        | none => rfl
        | some v => rw [hv] at hf; exact absurd rfl hf
      have hnotin : ∀ p ∈ s.universeItems, p.ticker ≠ tk := by
        intro p hp
        have := List.find?_eq_none.mp hnone p hp
        simpa using this
      unfold tickersNodup at h ⊢
      have hitems : (applyAction (.spawnPlanet tk pr ch co pos) s).universeItems
          = s.universeItems ++
            [{ ticker := tk, price := pr, change := ch, pos := pos, color := co }] := by
        simp [applyAction, spawnPlanet, hf]
      rw [hitems, List.map_append, List.nodup_append]
      refine ⟨h, by simp, ?_⟩
      intro x hx hx1
      simp only [List.map_cons, List.map_nil, List.mem_singleton] at hx1
      subst hx1
      obtain ⟨p, hp, hpt⟩ := List.mem_map.mp hx
      exact hnotin p hp hpt

/-- Witness for claim C2: spawning a fresh ticker on the seed state keeps the
tickers pairwise distinct. -/
theorem tickerUniqueness_invariant_witness :
    tickersNodup initialUniverseState ∧
    tickersNodup (applyAction (.spawnPlanet "SOL" 150 (-2) none (1, 1, 1)) initialUniverseState) :=
  ⟨by unfold tickersNodup; decide,
   tickerUniqueness_invariant.2 (.spawnPlanet "SOL" 150 (-2) none (1, 1, 1))
    initialUniverseState (by unfold tickersNodup; decide)⟩

/-- Claim C9: isFocusMode holds exactly when a non-empty ticker is selected:
this is true initially, preserved by every action, selecting the empty string
stores it but leaves focus mode off, and exitFocusMode clears both fields. -/
theorem focusMode_invariant :
    focusInvariant initialUniverseState ∧
    (∀ (a : UAction) (s : UniverseState), focusInvariant s → focusInvariant (applyAction a s)) ∧
    (∀ s, (setSelectedTicker (some "") s).selectedTicker = some "" ∧
          (setSelectedTicker (some "") s).isFocusMode = false) ∧
    (∀ s, (exitFocusMode s).selectedTicker = none ∧ (exitFocusMode s).isFocusMode = false) := by
  refine ⟨?_, ?_, ?_, ?_⟩
  · simp [focusInvariant, initialUniverseState]
  · intro a s h
    cases a with
    | setModality m => exact h
    | setSelectedTicker t =>
      simpa [focusInvariant, applyAction, setSelectedTicker] using jsTruthy_iff t
    | setHoveredTicker t => exact h
    | setCameraFocus p => exact h
    | exitFocusMode => simp [focusInvariant, applyAction, exitFocusMode]
    | spawnPlanet tk pr ch co pos =>
      unfold focusInvariant at h ⊢
      by_cases hf : (s.universeItems.find? (fun p => p.ticker == tk)).isSome <;>
        simpa [applyAction, spawnPlanet, hf] using h
  · intro s
    exact ⟨rfl, rfl⟩
  · intro s
    exact ⟨rfl, rfl⟩

/-- Witness for claim C9: selecting the ETH ticker preserves the focus
invariant starting from the initial state. -/
theorem focusMode_invariant_witness :
    focusInvariant (applyAction (.setSelectedTicker (some "ETH")) initialUniverseState) := by
  have h0 : focusInvariant initialUniverseState := by
    simp [focusInvariant, initialUniverseState]
  exact focusMode_invariant.2.1 (.setSelectedTicker (some "ETH")) initialUniverseState h0

/-- Claim C10: spawning a fresh ticker appends exactly one planet record at
the end of universeItems, carrying exactly the given ticker, price, change and
color and the freshly generated position, while every pre-existing planet and
every other store field stays unchanged. -/
theorem spawnPlanet_fresh_appends (tk : String) (pr ch : ℚ) (co : Option String)
    (pos : Vec3) (s : UniverseState) (h : ∀ p ∈ s.universeItems, p.ticker ≠ tk) :
    spawnPlanet tk pr ch co pos s =
      { s with universeItems := s.universeItems ++
          [{ ticker := tk, price := pr, change := ch, pos := pos, color := co }] } := by
  unfold spawnPlanet
  rw [if_neg]
  intro hs
  rw [List.find?_isSome] at hs
  obtain ⟨p, hp, hpt⟩ := hs
  exact h p hp (by simpa using hpt)

/-- Witness for claim C10: spawning SOL on the seed state appends exactly the
SOL record. -/
theorem spawnPlanet_fresh_appends_witness :
    (∀ p ∈ initialUniverseState.universeItems, p.ticker ≠ "SOL") ∧
    spawnPlanet "SOL" 150 (-2) (some "purple") (1, 2, 3) initialUniverseState =
      { initialUniverseState with universeItems := initialUniverseState.universeItems ++
          [{ ticker := "SOL", price := 150, change := -2, pos := (1, 2, 3),
             color := some "purple" }] } :=
  ⟨by decide, spawnPlanet_fresh_appends "SOL" 150 (-2) (some "purple") (1, 2, 3)
    initialUniverseState (by decide)⟩

/-- Counterexample to claim C4 as stated: a failing /research call made from
IntelligenceInput yields the literal error string, not the static mock
fallback, and nothing is substituted for the missing response. -/
theorem research_fallback_cex :
    inputResearchResponse .httpNotOk = "ERROR: CONNECTION FAILED. DETAILS: Neural Link Severed" ∧
    inputResearchResponse .httpNotOk ≠ (generateMockResearch "status of BTC").1 ∧
    inputSubmitStore .httpNotOk (1, 1, 1) initialUniverseState = initialUniverseState := by
  refine ⟨rfl, ?_, rfl⟩
  decide

/-- Claim C4, amended: the /research call made from IntelligenceTerminal
substitutes the static mock research data on every failure (non-ok status,
thrown network or parse failure, or a body carrying a truthy error field);
the /research call made from IntelligenceInput instead shows a literal error
string on failure and leaves the universe store untouched. -/
theorem research_fallback_amended :
    (∀ (q : String) (f : FetchResult ResearchBody), (∀ b, f ≠ .ok b) →
        terminalResearchResponse q f = generateMockResearch q) ∧
    (∀ (q : String) (b : ResearchBody), jsTruthy b.error = true →
        terminalResearchResponse q (.ok b) = generateMockResearch q) ∧
    (∀ msg, inputResearchResponse (.failed msg) = "ERROR: CONNECTION FAILED. DETAILS: " ++ msg) ∧
    inputResearchResponse .httpNotOk = "ERROR: CONNECTION FAILED. DETAILS: Neural Link Severed" ∧
    (∀ (f : FetchResult String) (pos : Vec3) (s : UniverseState), (∀ a, f ≠ .ok a) →
        inputSubmitStore f pos s = s) := by
  refine ⟨?_, ?_, fun msg => rfl, rfl, ?_⟩
  · intro q f hf
    cases f with
    | ok b => exact absurd rfl (hf b)
    | httpNotOk => rfl
    | failed msg => rfl
  · intro q b hb
    simp [terminalResearchResponse, hb]
  · intro f pos s hf
    cases f with
    | ok a => exact absurd rfl (hf a)
    | httpNotOk => rfl
    | failed msg => rfl

/-- Witness for the amended claim C4: a concrete non-ok /research outcome is
replaced by the mock data in the terminal and leaves the store untouched in
the input component. -/
theorem research_fallback_amended_witness :
    terminalResearchResponse "macro outlook" .httpNotOk = generateMockResearch "macro outlook" ∧
    inputSubmitStore .httpNotOk (0, 0, 0) initialUniverseState = initialUniverseState := by
  have hb : ∀ b, (FetchResult.httpNotOk : FetchResult ResearchBody) ≠ .ok b :=
    fun b h => FetchResult.noConfusion h
  have ha : ∀ a, (FetchResult.httpNotOk : FetchResult String) ≠ .ok a :=
    fun a h => FetchResult.noConfusion h
  exact ⟨research_fallback_amended.1 "macro outlook" .httpNotOk hb,
         research_fallback_amended.2.2.2.2 .httpNotOk (0, 0, 0) initialUniverseState ha⟩

/-- Counterexample to claim C7 as stated: with the camera already at the
stored cameraFocus target, a focus-mode frame moves it away, so the camera is
not interpolated toward (and does not converge to) the stored target itself. -/
theorem camera_target_not_fixed_point :
    focusedState.isFocusMode = true ∧
    focusedState.cameraFocus = (0, 0, 0) ∧
    (cameraFrame focusedState (0, 0) (0, 0, 0) (0, 0, 0)).1 ≠ focusedState.cameraFocus := by
  refine ⟨rfl, rfl, ?_⟩
  have hfm : focusedState.isFocusMode = true := rfl
  have hcf : focusedState.cameraFocus = ((0 : ℚ), 0, 0) := rfl
  have hgoal : focusGoal focusedState = ((0 : ℚ), 2, 5) := by
    simp [focusGoal, vaddV, hcf]
  have hval : (cameraFrame focusedState (0, 0) (0, 0, 0) (0, 0, 0)).1 =
      ((0 : ℚ), 1 / 10, 1 / 4) := by
    simp [cameraFrame, hfm, hgoal, lerpV, lerpQ]
    norm_num
  rw [hval, hcf]
  norm_num [Prod.ext_iff]

/-- Claim C7, amended: while focus mode is active each rendered frame lerps
the camera position with factor 0.05 toward the offset goal cameraFocus plus
(0, 2, 5) (and the controls target toward cameraFocus itself), so the camera
position converges to that offset goal, with geometric error decay 19/20 per
frame; storing a new target simply overwrites cameraFocus with no other
change. -/
theorem camera_lerp_amended (s : UniverseState) (mouse : ℚ × ℚ) (cam ctrl : Vec3)
    (h : s.isFocusMode = true) :
    (cameraFrame s mouse cam ctrl).1 = lerpV cam (focusGoal s) 0.05 ∧
    (cameraFrame s mouse cam ctrl).2 = lerpV ctrl s.cameraFocus 0.05 ∧
    (∀ n, (camIterate s mouse (cam, ctrl) n).1 =
      ((focusGoal s).1 + (19 / 20) ^ n * (cam.1 - (focusGoal s).1),
       (focusGoal s).2.1 + (19 / 20) ^ n * (cam.2.1 - (focusGoal s).2.1),
       (focusGoal s).2.2 + (19 / 20) ^ n * (cam.2.2 - (focusGoal s).2.2))) ∧
    Filter.Tendsto (fun n => (camIterate s mouse (cam, ctrl) n).1)
      Filter.atTop (nhds (focusGoal s)) ∧
    (∀ (p : Vec3) (s' : UniverseState), setCameraFocus p s' = { s' with cameraFocus := p }) := by
  have hstep : ∀ c t : Vec3, cameraFrame s mouse c t =
      (lerpV c (focusGoal s) 0.05, lerpV t s.cameraFocus 0.05) := by
    intro c t
    simp [cameraFrame, h]
  have h005 : (0.05 : ℚ) = 1 / 20 := by norm_num
  have hiter : ∀ n, (camIterate s mouse (cam, ctrl) n).1 =
      ((focusGoal s).1 + (19 / 20) ^ n * (cam.1 - (focusGoal s).1),
       (focusGoal s).2.1 + (19 / 20) ^ n * (cam.2.1 - (focusGoal s).2.1),
       (focusGoal s).2.2 + (19 / 20) ^ n * (cam.2.2 - (focusGoal s).2.2)) := by
    intro n
    induction n with
    | zero => simp [camIterate]
    | succ k ih =>
      show (cameraFrame s mouse (camIterate s mouse (cam, ctrl) k).1
              (camIterate s mouse (cam, ctrl) k).2).1 = _
      rw [hstep, ih]
      simp only [lerpV, lerpQ, h005]
      refine Prod.ext ?_ (Prod.ext ?_ ?_) <;> simp only [] <;> ring
  refine ⟨by rw [hstep], by rw [hstep], hiter, ?_, fun p s' => rfl⟩
  have hpow : Filter.Tendsto (fun n : ℕ => ((19 : ℚ) / 20) ^ n) Filter.atTop (nhds 0) :=
    tendsto_pow_atTop_nhds_zero_of_lt_one (by norm_num) (by norm_num)
  have hcomp : ∀ g d : ℚ, Filter.Tendsto (fun n : ℕ => g + ((19 : ℚ) / 20) ^ n * d)
      Filter.atTop (nhds g) := by
    intro g d
    have h1 := hpow.mul_const d
    rw [zero_mul] at h1
    have h2 := h1.const_add g
    rwa [add_zero] at h2
  have hall : Filter.Tendsto (fun n : ℕ =>
      (((focusGoal s).1 + (19 / 20) ^ n * (cam.1 - (focusGoal s).1),
        (focusGoal s).2.1 + (19 / 20) ^ n * (cam.2.1 - (focusGoal s).2.1),
        (focusGoal s).2.2 + (19 / 20) ^ n * (cam.2.2 - (focusGoal s).2.2)) : Vec3))
      Filter.atTop (nhds (focusGoal s)) := by
    have := (hcomp (focusGoal s).1 (cam.1 - (focusGoal s).1)).prod_mk_nhds
      ((hcomp (focusGoal s).2.1 (cam.2.1 - (focusGoal s).2.1)).prod_mk_nhds
        (hcomp (focusGoal s).2.2 (cam.2.2 - (focusGoal s).2.2)))
    simpa using this
  exact hall.congr (fun n => (hiter n).symm)

/-- Witness for the amended claim C7: the focus-mode camera dynamics at a
concrete state, mouse position and start point. -/
theorem camera_lerp_amended_witness :
    (cameraFrame focusedState (0, 0) (1, 1, 1) (0, 0, 0)).1 =
      lerpV (1, 1, 1) (focusGoal focusedState) 0.05 ∧
    (cameraFrame focusedState (0, 0) (1, 1, 1) (0, 0, 0)).2 =
      lerpV (0, 0, 0) focusedState.cameraFocus 0.05 ∧
    (∀ n, (camIterate focusedState (0, 0) ((1, 1, 1), (0, 0, 0)) n).1 =
      ((focusGoal focusedState).1 + (19 / 20) ^ n * ((1 : ℚ) - (focusGoal focusedState).1),
       (focusGoal focusedState).2.1 + (19 / 20) ^ n * ((1 : ℚ) - (focusGoal focusedState).2.1),
       (focusGoal focusedState).2.2 + (19 / 20) ^ n * ((1 : ℚ) - (focusGoal focusedState).2.2))) ∧
    Filter.Tendsto (fun n => (camIterate focusedState (0, 0) ((1, 1, 1), (0, 0, 0)) n).1)
      Filter.atTop (nhds (focusGoal focusedState)) ∧
    (∀ (p : Vec3) (s' : UniverseState), setCameraFocus p s' = { s' with cameraFocus := p }) :=
  camera_lerp_amended focusedState (0, 0) (1, 1, 1) (0, 0, 0) rfl

/-- Core extraction property of the SPAWN matcher: on a whitespace-separated
token whose runs satisfy the shape conditions, matching at the start of the
input captures exactly the four field runs, for any trailing text. -/
theorem matchSpawnAt_token (tk pr ch co w0 w1 w2 w3 suffix : List Char)
    (h : spawnShape tk pr ch co w0 w1 w2 w3) :
    matchSpawnAt ("[SPAWN:".data ++
        (w0 ++ (tk ++ (w1 ++ (pr ++ (w2 ++ (ch ++ (w3 ++ (co ++ ']' :: suffix))))))))) =
      some (tk, pr, ch, co) := by
  obtain ⟨htk, htkw, hpr, hprw, hch, hchw, hcow, hw0, hw1ne, hw1w, hw2ne, hw2w, hw3w, hw3e⟩ := h
  obtain ⟨tkh, tkt, rfl⟩ := List.exists_cons_of_ne_nil htk
  obtain ⟨prh, prt, rfl⟩ := List.exists_cons_of_ne_nil hpr
  obtain ⟨chh, cht, rfl⟩ := List.exists_cons_of_ne_nil hch
  obtain ⟨w1h, w1t, rfl⟩ := List.exists_cons_of_ne_nil hw1ne
  obtain ⟨w2h, w2t, rfl⟩ := List.exists_cons_of_ne_nil hw2ne
  have htkh : isWordChar tkh = true := htkw tkh (by simp)
  have hw1h : isSpaceChar w1h = true := hw1w w1h (by simp)
  have hprh : isPriceChar prh = true := hprw prh (by simp)
  have hw2h : isSpaceChar w2h = true := hw2w w2h (by simp)
  have hchh : isChangeChar chh = true := hchw chh (by simp)
  have hT6head : ∃ d r6t, w3 ++ (co ++ (']' :: suffix)) = d :: r6t ∧ isChangeChar d = false := by
    cases hw3c : w3 with
    | nil =>
      have hco : co = [] := by
        by_contra hc
        exact (hw3e hc) hw3c
      subst hco
      exact ⟨']', suffix, by simp, by decide⟩
    | cons w3h w3t =>
      refine ⟨w3h, w3t ++ (co ++ (']' :: suffix)), by simp, ?_⟩
      exact (space_not_other (hw3w w3h (by simp [hw3c]))).2.2
  obtain ⟨d, r6t, hT6, hd⟩ := hT6head
  have hT6drop : (w3 ++ (co ++ (']' :: suffix))).dropWhile isSpaceChar =
      co ++ (']' :: suffix) := by
    rw [dropWhile_append_all w3 _ hw3w]
    cases co with
    | nil => simp [List.dropWhile_cons_of_neg (show ¬ isSpaceChar ']' = true by decide)]
    | cons coh cot =>
      simp only [List.cons_append]
      exact List.dropWhile_cons_of_neg
        (by simp [word_not_space (hcow coh (by simp))])
  have e1 : (w0 ++ (tkh :: (tkt ++ (w1h :: (w1t ++ (prh :: (prt ++ (w2h :: (w2t ++
        (chh :: (cht ++ (w3 ++ (co ++ (']' :: suffix)))))))))))))).dropWhile isSpaceChar =
      tkh :: (tkt ++ (w1h :: (w1t ++ (prh :: (prt ++ (w2h :: (w2t ++
        (chh :: (cht ++ (w3 ++ (co ++ (']' :: suffix)))))))))))) := by
    rw [dropWhile_append_all w0 _ hw0]
    exact List.dropWhile_cons_of_neg (by simp [word_not_space htkh])
  have e2 : (tkh :: (tkt ++ (w1h :: (w1t ++ (prh :: (prt ++ (w2h :: (w2t ++
        (chh :: (cht ++ (w3 ++ (co ++ (']' :: suffix))))))))))))).takeWhile isWordChar =
      tkh :: tkt := by
    simpa using takeWhile_block (tkh :: tkt) w1h
      (w1t ++ (prh :: (prt ++ (w2h :: (w2t ++ (chh :: (cht ++ (w3 ++ (co ++ (']' :: suffix))))))))))
      htkw (by simp [(space_not_other hw1h).1])
  have e3 : (tkh :: (tkt ++ (w1h :: (w1t ++ (prh :: (prt ++ (w2h :: (w2t ++
        (chh :: (cht ++ (w3 ++ (co ++ (']' :: suffix))))))))))))).dropWhile isWordChar =
      w1h :: (w1t ++ (prh :: (prt ++ (w2h :: (w2t ++
        (chh :: (cht ++ (w3 ++ (co ++ (']' :: suffix)))))))))) := by
    simpa using dropWhile_block (tkh :: tkt) w1h
      (w1t ++ (prh :: (prt ++ (w2h :: (w2t ++ (chh :: (cht ++ (w3 ++ (co ++ (']' :: suffix))))))))))
      htkw (by simp [(space_not_other hw1h).1])
  have e4 : (w1h :: (w1t ++ (prh :: (prt ++ (w2h :: (w2t ++
        (chh :: (cht ++ (w3 ++ (co ++ (']' :: suffix))))))))))).takeWhile isSpaceChar =
      w1h :: ((w1t ++ (prh :: (prt ++ (w2h :: (w2t ++
        (chh :: (cht ++ (w3 ++ (co ++ (']' :: suffix)))))))))).takeWhile isSpaceChar) :=
    List.takeWhile_cons_of_pos (by simp [hw1h])
  have e5 : (w1h :: (w1t ++ (prh :: (prt ++ (w2h :: (w2t ++
        (chh :: (cht ++ (w3 ++ (co ++ (']' :: suffix))))))))))).dropWhile isSpaceChar =
      prh :: (prt ++ (w2h :: (w2t ++ (chh :: (cht ++ (w3 ++ (co ++ (']' :: suffix)))))))) := by
    simpa using dropWhile_block (w1h :: w1t) prh
      (prt ++ (w2h :: (w2t ++ (chh :: (cht ++ (w3 ++ (co ++ (']' :: suffix))))))))
      hw1w (price_not_space hprh)
  have e6 : (prh :: (prt ++ (w2h :: (w2t ++
        (chh :: (cht ++ (w3 ++ (co ++ (']' :: suffix))))))))).takeWhile isPriceChar =
      prh :: prt := by
    simpa using takeWhile_block (prh :: prt) w2h
      (w2t ++ (chh :: (cht ++ (w3 ++ (co ++ (']' :: suffix))))))
      hprw (by simp [(space_not_other hw2h).2.1])
  have e7 : (prh :: (prt ++ (w2h :: (w2t ++
        (chh :: (cht ++ (w3 ++ (co ++ (']' :: suffix))))))))).dropWhile isPriceChar =
      w2h :: (w2t ++ (chh :: (cht ++ (w3 ++ (co ++ (']' :: suffix)))))) := by
    simpa using dropWhile_block (prh :: prt) w2h
      (w2t ++ (chh :: (cht ++ (w3 ++ (co ++ (']' :: suffix))))))
      hprw (by simp [(space_not_other hw2h).2.1])
  have e8 : (w2h :: (w2t ++ (chh :: (cht ++
        (w3 ++ (co ++ (']' :: suffix))))))).takeWhile isSpaceChar =
      w2h :: ((w2t ++ (chh :: (cht ++
        (w3 ++ (co ++ (']' :: suffix)))))).takeWhile isSpaceChar) :=
    List.takeWhile_cons_of_pos (by simp [hw2h])
  have e9 : (w2h :: (w2t ++ (chh :: (cht ++
        (w3 ++ (co ++ (']' :: suffix))))))).dropWhile isSpaceChar =
      chh :: (cht ++ (w3 ++ (co ++ (']' :: suffix)))) := by
    simpa using dropWhile_block (w2h :: w2t) chh
      (cht ++ (w3 ++ (co ++ (']' :: suffix))))
      hw2w (change_not_space hchh)
  have e10 : (chh :: (cht ++ (w3 ++ (co ++ (']' :: suffix))))).takeWhile isChangeChar =
      chh :: cht := by
    have hb := takeWhile_block (chh :: cht) d r6t hchw hd
    rw [← hT6] at hb
    simpa using hb
  have e11 : (chh :: (cht ++ (w3 ++ (co ++ (']' :: suffix))))).dropWhile isChangeChar =
      w3 ++ (co ++ (']' :: suffix)) := by
    have hb := dropWhile_block (chh :: cht) d r6t hchw hd
    rw [← hT6] at hb
    simpa [hT6] using hb
  have eCo : (co ++ (']' :: suffix)).takeWhile isWordChar = co :=
    takeWhile_block co ']' suffix hcow (by decide)
  have eCoD : (co ++ (']' :: suffix)).dropWhile isWordChar = ']' :: suffix :=
    dropWhile_block co ']' suffix hcow (by decide)
  have htake : (chh :: cht).take (cht.length + 1) = chh :: cht := by
    rw [show cht.length + 1 = (chh :: cht).length from rfl]
    exact List.take_length _
  have hdropc : (chh :: cht).drop (cht.length + 1) = [] := by
    rw [show cht.length + 1 = (chh :: cht).length from rfl]
    exact List.drop_length _
  have etry : tryChange (cht.length + 1) (chh :: cht) (w3 ++ (co ++ (']' :: suffix))) =
      some (chh :: cht, co) := by
    simp only [tryChange, htake, hdropc, List.nil_append, hT6drop, eCo, eCoD]
    simp
  unfold matchSpawnAt
  rw [dropLit_self_append]
  simp only [List.cons_append]
  simp only [e1, e2, e3, e4, e5, e6, e7, e8, e9, e10, e11, List.length_cons, etry]
  simp

/-- A match at the first position is the leftmost match. -/
theorem findSpawn_eq_some {cs : List Char} {g : List Char × List Char × List Char × List Char}
    (hne : cs ≠ []) (hm : matchSpawnAt cs = some g) : findSpawn cs = some g := by
  cases cs with
  | nil => exact absurd rfl hne
  | cons c t => simp [findSpawn, hm]

/-- Claim C3, amended: a response consisting of a whitespace-separated SPAWN
token (with any trailing text) has exactly its four field runs extracted by
the regex; every well-formed ticker/price/change/color token has this shape.
A response with no regex match triggers no spawn and leaves the store
unchanged, and a response with a match calls spawnPlanet with the parsed
fields.  However the price and change classes also admit non-numeric runs, so
not every malformed token is ignored (see the counterexample). -/
theorem spawn_regex_amended :
    (∀ tk pr ch co w0 w1 w2 w3 suffix, spawnShape tk pr ch co w0 w1 w2 w3 →
        findSpawn (spawnTokenChars w0 tk w1 pr w2 ch w3 co ++ suffix) = some (tk, pr, ch, co)) ∧
    (∀ answer pos s, findSpawn answer = none → handleSpawnStep answer pos s = s) ∧
    (∀ answer pos s tk pr chg co, findSpawn answer = some (tk, pr, chg, co) →
        handleSpawnStep answer pos s =
          spawnPlanet tk.asString ((jsParseFloat pr).getD 0) ((jsParseFloat chg).getD 0)
            (some co.asString) pos s) := by
  refine ⟨?_, ?_, ?_⟩
  · intro tk pr ch co w0 w1 w2 w3 suffix h
    have hm := matchSpawnAt_token tk pr ch co w0 w1 w2 w3 suffix h
    have hshape : spawnTokenChars w0 tk w1 pr w2 ch w3 co ++ suffix =
        "[SPAWN:".data ++
          (w0 ++ (tk ++ (w1 ++ (pr ++ (w2 ++ (ch ++ (w3 ++ (co ++ ']' :: suffix)))))))) := by
      simp [spawnTokenChars]
    rw [hshape]
    refine findSpawn_eq_some ?_ hm
    simp
  · intro answer pos s h
    simp [handleSpawnStep, h]
  · intro answer pos s tk pr chg co h
    simp [handleSpawnStep, h]

/-- Counterexample to claim C3 as stated: the response string consisting only
of the malformed token with the non-numeric price run consisting of a bare dot
and the bare hyphen change run is matched by the regex, and the spawn step
adds a planet even though the response contains no well-formed token. -/
theorem spawn_regex_malformed_cex :
    findSpawn "[SPAWN: A . -]".data = some (['A'], ['.'], ['-'], ([] : List Char)) ∧
    jsParseFloat ['.'] = none ∧
    (handleSpawnStep "[SPAWN: A . -]".data (1, 1, 1) initialUniverseState).universeItems.length = 4 ∧
    initialUniverseState.universeItems.length = 3 :=
  ⟨by decide, by decide, by decide, by decide⟩

/-- Witness for the amended claim C3: a concrete well-formed token is matched
with exactly its four fields extracted. -/
theorem spawn_regex_amended_witness :
    spawnShape "SOL".data "150.5".data "-2.3".data "purple".data " ".data " ".data " ".data " ".data ∧
    findSpawn (spawnTokenChars " ".data "SOL".data " ".data "150.5".data " ".data "-2.3".data
        " ".data "purple".data ++ []) =
      some ("SOL".data, "150.5".data, "-2.3".data, "purple".data) :=
  ⟨by unfold spawnShape; decide, spawn_regex_amended.1 "SOL".data "150.5".data "-2.3".data
    "purple".data " ".data " ".data " ".data " ".data [] (by unfold spawnShape; decide)⟩
